import Mathlib

/-!
Verification of the shared browser lifecycle manager of the
`open-webSearch` repository (`src/engines/shared/browser.ts`, with the
engine-local variant in `src/engines/bing/bing.ts`).

The TypeScript module is shallowly embedded: the ambient I/O behaviour
(filesystem probes, port allocation, process spawning, HTTP probes,
protocol liveness calls) is captured in a `World` record of responses,
and each source function becomes a pure Lean function from the world and
the module-level mutable state to a result, an updated state, and a
trace of observable side effects.
-/

namespace WebSearch

/-- The two platform branches the source distinguishes
(`process.platform === 'win32'` vs everything else). -/
inductive Platform where
  | win32
  | posix
deriving DecidableEq, Repr

/-- The error outcomes of the creation path, one per `throw` site of
`browser.ts`. -/
inductive Err where
  /-- `getBrowserPath` found no candidate on disk (line 54). -/
  | execNotFound
  /-- `findFreePort` could not determine a port (line 67). -/
  | portFailed
  /-- the Windows WMI spawn threw (line 127). -/
  | wmiLaunchFailed
  /-- the handshake loop exhausted its 30 attempts (line 162). -/
  | handshakeFailed
  /-- `puppeteer.connect` threw (line 172 rethrow). -/
  | connectFailed
deriving DecidableEq, Repr

/-- Observable side effects of the module, one constructor per external
action the source performs.  Network-facing effects record the timeout
the source attaches to them (`none` when the source attaches none).
`closeBrowser` and `killTree` exist so that spec-side teardown shapes
are statable; the shared module itself only ever emits `disconnect`,
`killPid` and `rmDir` during teardown. -/
inductive Effect where
  | mkTempDir (dir : String)
  | spawnWMI (path : String) (timeoutMs : Nat)
  | spawnPosix (path : String)
  | sleep (ms : Nat)
  | httpProbe (url : String) (timeoutMs : Option Nat)
  | connect (wsUrl : String)
  | versionCall (timeoutMs : Option Nat)
  | disconnect
  | closeBrowser (timeoutMs : Option Nat)
  | killPid (pid : Nat)
  | killTree (pid : Nat)
  | rmDir (dir : String)
deriving DecidableEq, Repr

/-- A `BrowserSession` (browser.ts lines 74–78): the connected browser
handle is identified by its WebSocket endpoint, plus the profile
directory and the optional process id. -/
structure BrowserSession where
  wsUrl : String
  tempDir : String
  browserPid : Option Nat
deriving DecidableEq, Repr

/-- Responses of the environment to the module's external actions,
fixing one deterministic run. -/
structure World where
  platform : Platform
  /-- `process.env['PROGRAMFILES(X86)']` -/
  pf86 : Option String
  /-- `process.env['PROGRAMFILES']` -/
  pf : Option String
  /-- `process.env['LOCALAPPDATA']` -/
  localAppData : Option String
  /-- `existsSync` -/
  fsExists : String → Bool
  /-- the directory name `mkdtempSync` returns -/
  tempDir : String
  /-- the port `findFreePort` resolves with, `none` if it rejects -/
  port : Option Nat
  /-- the PID the Windows WMI spawn reports, `none` if it throws -/
  wmiPid : Option Nat
  /-- `child.pid` of the POSIX `spawn`; `none` when the spawn fails
  (the `error` event is swallowed by the source, so no exception) -/
  posixPid : Option Nat
  /-- result of the i-th handshake probe of `/json/version`: the
  `webSocketDebuggerUrl` field when present -/
  probe : Nat → Option String
  /-- whether `puppeteer.connect` succeeds -/
  connectOk : Bool
  /-- whether the liveness call `browser.version()` on the cached
  session succeeds -/
  versionOk : Bool

/-- The module-level mutable state of `browser.ts`:
`cachedBrowserPath` (line 12), `cachedSession` (line 80),
`cleanupRegistered` (line 81). -/
structure GState where
  cachedBrowserPath : Option String
  cachedSession : Option BrowserSession
  cleanupRegistered : Bool
deriving DecidableEq, Repr

/-! ## Executable locator (`getBrowserPath`, lines 14–55) -/

/-- The candidate list of browser.ts lines 17–44, in push order:
four hard-coded Windows paths, then the environment-variable-derived
paths, then the Linux and macOS paths. -/
def candidates (w : World) : List String :=
  ["C:\\Program Files (x86)\\Microsoft\\Edge\\Application\\msedge.exe",
   "C:\\Program Files\\Microsoft\\Edge\\Application\\msedge.exe",
   "C:\\Program Files (x86)\\Google\\Chrome\\Application\\chrome.exe",
   "C:\\Program Files\\Google\\Chrome\\Application\\chrome.exe"]
  ++ (match w.pf86 with
      | some v => [v ++ "\\Microsoft\\Edge\\Application\\msedge.exe",
                   v ++ "\\Google\\Chrome\\Application\\chrome.exe"]
      | none => [])
  ++ (match w.pf with
      | some v => [v ++ "\\Microsoft\\Edge\\Application\\msedge.exe",
                   v ++ "\\Google\\Chrome\\Application\\chrome.exe"]
      | none => [])
  ++ (match w.localAppData with
      | some v => [v ++ "\\Google\\Chrome\\Application\\chrome.exe"]
      | none => [])
  ++ ["/usr/bin/google-chrome", "/usr/bin/chromium-browser",
      "/usr/bin/chromium", "/usr/bin/microsoft-edge",
      "/Applications/Google Chrome.app/Contents/MacOS/Google Chrome",
      "/Applications/Microsoft Edge.app/Contents/MacOS/Microsoft Edge"]

/-- `[...new Set(candidates)]` (line 46): deduplication keeping the
first occurrence of each element, as a JavaScript `Set` does. -/
def dedupFirstAux : List String → List String → List String
  | _, [] => []
  | seen, x :: xs =>
      if x ∈ seen then dedupFirstAux seen xs
      else x :: dedupFirstAux (x :: seen) xs

/-- Deduplicated candidate order (`unique` in the source). -/
def dedupFirst (l : List String) : List String := dedupFirstAux [] l

/-- `getBrowserPath` (lines 14–55): return the cache if set, else scan
the deduplicated candidates for the first existing path, caching it;
throw if none exists.  Returns the result together with the new value
of `cachedBrowserPath`. -/
def getBrowserPath (w : World) (cache : Option String) :
    Except Err String × Option String :=
  match cache with
  | some p => (.ok p, some p)
  | none =>
      match (dedupFirst (candidates w)).find? w.fsExists with
      | some p => (.ok p, some p)
      | none => (.error .execNotFound, none)

/-! ## Handshake prober (browser.ts lines 139–157) -/

/-- One iteration of the handshake loop contributes: a 200 ms sleep,
then an HTTP probe of the debug endpoint bounded by a 2000 ms abort. -/
def probeEffects (url : String) : List Effect :=
  [.sleep 200, .httpProbe url (some 2000)]

/-- The handshake loop `for (let i = 0; i < 30; i++)`: sleep 200 ms,
probe with a 2 s abort, stop at the first response carrying a
`webSocketDebuggerUrl`.  `fuel` counts the remaining attempts and `i`
the current index. -/
def handshakeAux (probe : Nat → Option String) (url : String) :
    Nat → Nat → Option String × List Effect
  | 0, _ => (none, [])
  | fuel + 1, i =>
      match probe i with
      | some ws => (some ws, probeEffects url)
      | none =>
          let rest := handshakeAux probe url fuel (i + 1)
          (rest.1, probeEffects url ++ rest.2)

/-- The full handshake phase, with the source's attempt budget of 30. -/
def handshake (probe : Nat → Option String) (url : String) :
    Option String × List Effect :=
  handshakeAux probe url 30 0

/-- `if (browserPid) try { process.kill(browserPid); } catch {}` -/
def killEffects : Option Nat → List Effect
  | none => []
  | some p => [.killPid p]

/-- The debug endpoint polled during the handshake. -/
def debugUrl (port : Nat) : String :=
  "http://127.0.0.1:" ++ toString port ++ "/json/version"

/-! ## `launchBrowser` (browser.ts lines 83–174) -/

/-- The part of `launchBrowser` after the spawn: handshake loop, then
`puppeteer.connect`; on handshake exhaustion or connect failure, kill
the spawned process (if a pid is known) and remove the profile
directory before throwing. -/
def afterSpawn (w : World) (port : Nat) (dir : String)
    (pid : Option Nat) (tr : List Effect) :
    Except Err BrowserSession × List Effect :=
  let hs := handshake w.probe (debugUrl port)
  match hs.1 with
  | none =>
      (.error .handshakeFailed,
       tr ++ hs.2 ++ killEffects pid ++ [.rmDir dir])
  | some ws =>
      if w.connectOk then
        (.ok ⟨ws, dir, pid⟩, tr ++ hs.2 ++ [.connect ws])
      else
        (.error .connectFailed,
         tr ++ hs.2 ++ [.connect ws] ++ killEffects pid ++ [.rmDir dir])

/-- `launchBrowser` (lines 83–174): resolve the executable, create the
profile directory, allocate a port, spawn platform-specifically, then
handshake and connect.  Threads `cachedBrowserPath` and returns the
effect trace. -/
def launchBrowser (w : World) (cache : Option String) :
    Except Err BrowserSession × Option String × List Effect :=
  match getBrowserPath w cache with
  | (.error e, c) => (.error e, c, [])
  | (.ok path, c) =>
      let dir := w.tempDir
      let tr0 : List Effect := [.mkTempDir dir]
      match w.port with
      | none => (.error .portFailed, c, tr0)
      | some port =>
          match w.platform with
          | .win32 =>
              match w.wmiPid with
              | none =>
                  -- WMI spawn threw: remove the profile dir, rethrow
                  (.error .wmiLaunchFailed, c,
                   tr0 ++ [.spawnWMI path 10000, .rmDir dir])
              | some pid =>
                  let r := afterSpawn w port dir (some pid)
                    (tr0 ++ [.spawnWMI path 10000])
                  (r.1, c, r.2)
          | .posix =>
              -- spawn errors are swallowed (`child.on('error', ...)`);
              -- `child.pid` may be absent when the spawn failed
              let r := afterSpawn w port dir w.posixPid
                (tr0 ++ [.spawnPosix path])
              (r.1, c, r.2)

/-! ## Teardown (`cleanupSession`, lines 176–180) -/

/-- `cleanupSession` of the shared module: disconnect the puppeteer
client, kill the recorded pid unconditionally (when present), remove
the profile directory; every step wrapped in try/catch. -/
def cleanupSession (s : BrowserSession) : List Effect :=
  [.disconnect] ++ killEffects s.browserPid ++ [.rmDir s.tempDir]

/-- `cleanupSession` of the bing engine module (bing.ts lines 230–234):
identical except that it calls `browser.close()` — a protocol-level
close with no timeout attached — instead of `disconnect()`. -/
def bingCleanupSession (s : BrowserSession) : List Effect :=
  [.closeBrowser none] ++ killEffects s.browserPid ++ [.rmDir s.tempDir]

/-! ## `getSharedBrowser` / `destroySharedBrowser` (lines 183–220) -/

/-- `getSharedBrowser` (lines 183–212).  With a cached session, issue
the liveness call `browser.version()` (no timeout attached); on
success return the cached session unchanged, on failure clean it up
and clear the slot before falling through to creation.  A successful
creation stores the session and registers the exit/signal cleanup
handlers once. -/
def getSharedBrowser (w : World) (st : GState) :
    Except Err BrowserSession × GState × List Effect :=
  match st.cachedSession with
  | some s =>
      if w.versionOk then
        (.ok s, st, [.versionCall none])
      else
        let launched := launchBrowser w st.cachedBrowserPath
        let pre := Effect.versionCall none :: cleanupSession s
        match launched with
        | (.ok sn, c, tr) =>
            (.ok sn, ⟨c, some sn, true⟩, pre ++ tr)
        | (.error e, c, tr) =>
            (.error e, ⟨c, none, st.cleanupRegistered⟩, pre ++ tr)
  | none =>
      let launched := launchBrowser w st.cachedBrowserPath
      match launched with
      | (.ok sn, c, tr) =>
          (.ok sn, ⟨c, some sn, true⟩, tr)
      | (.error e, c, tr) =>
          (.error e, ⟨c, none, st.cleanupRegistered⟩, tr)

/-- `destroySharedBrowser` (lines 215–220): clean up and clear the
slot when occupied; otherwise do nothing. -/
def destroySharedBrowser (st : GState) : GState × List Effect :=
  match st.cachedSession with
  | some s => (⟨st.cachedBrowserPath, none, st.cleanupRegistered⟩,
               cleanupSession s)
  | none => (st, [])

/-! ## Interleaving model of concurrent `getSharedBrowser` calls

`getSharedBrowser` contains an `await launchBrowser()` suspension point
between the check of the empty cache slot and the assignment that fills
it (lines 184, 195–196).  In Node's cooperative scheduling, each caller
therefore executes two atomic segments: the slot check, and the
launch-completion-plus-assignment.  The machine below models any
interleaving of such callers, plus `destroySharedBrowser` events;
processes are identified by pids allocated in launch order. -/

/-- Program counter of one `getSharedBrowser` caller: before the slot
check, suspended inside `launchBrowser`, or returned. -/
inductive Pc where
  | start
  | launching
  | done
deriving DecidableEq, Repr

/-- State of the interleaving machine: the cache slot (pid of the
cached session), the pid allocator, the set of live browser processes
in launch order, and each caller's program counter. -/
structure CState where
  cached : Option Nat
  nextPid : Nat
  procs : List Nat
  pcs : Nat → Pc

/-- An atomic event: one caller executes its next segment, or
`destroySharedBrowser` runs (killing the cached process only). -/
inductive CAct where
  | call (c : Nat)
  | destroy
deriving DecidableEq, Repr

/-- One atomic step of the interleaving machine. -/
def cstep (st : CState) : CAct → CState
  | .destroy =>
      match st.cached with
      | some pid =>
          { st with cached := none, procs := st.procs.erase pid }
      | none => st
  | .call c =>
      match st.pcs c with
      | .start =>
          match st.cached with
          | some _ =>
              -- cached session observed healthy, returned unchanged
              { st with pcs := fun d => if d = c then .done else st.pcs d }
          | none =>
              -- empty slot observed; suspend inside launchBrowser
              { st with pcs := fun d => if d = c then .launching else st.pcs d }
      | .launching =>
          -- launch completes: new process, slot overwritten
          { cached := some st.nextPid,
            nextPid := st.nextPid + 1,
            procs := st.procs ++ [st.nextPid],
            pcs := fun d => if d = c then .done else st.pcs d }
      | .done => st

/-- Run a schedule of atomic events. -/
def runSched (st : CState) (acts : List CAct) : CState :=
  acts.foldl cstep st

/-- Initial state: empty slot, no processes, all callers at `start`. -/
def initConc : CState :=
  { cached := none, nextPid := 0, procs := [], pcs := fun _ => .start }

/-- The schedule of `n` simultaneous first calls: every caller checks
the (empty) slot before any caller's launch completes. -/
def simulSched (n : Nat) : List CAct :=
  (List.range n).map .call ++ (List.range n).map .call

/-- Number of cached sessions (the slot is a single variable). -/
def cachedCount (st : CState) : Nat :=
  if st.cached.isSome then 1 else 0

/-! ## Trigger model of teardown (`cleanup` closure, lines 198–209)

`getSharedBrowser` registers the `cleanup` closure with `process.once`
for `exit`, `SIGINT` and `SIGTERM`; `destroySharedBrowser` shares its
guarded body.  The machine below fires any sequence of these triggers;
`process.once` semantics is modelled by an armed flag per event name. -/

/-- State for the teardown triggers: the cache slot and the armed
state of the three `process.once` registrations. -/
structure TState where
  cached : Option BrowserSession
  exitArmed : Bool
  intArmed : Bool
  termArmed : Bool

/-- A shutdown trigger: explicit invalidation, process-exit event, or
an interrupt/termination signal. -/
inductive Trigger where
  | destroy
  | procExit
  | sigint
  | sigterm
deriving DecidableEq, Repr

/-- The guarded `cleanup` closure body (lines 200–205), which is also
the body of `destroySharedBrowser` (lines 215–220). -/
def cleanupClosure (st : TState) : TState × List Effect :=
  match st.cached with
  | some s => ({ st with cached := none }, cleanupSession s)
  | none => (st, [])

/-- Fire one trigger.  Signals and the exit event run the closure only
if still armed (`process.once`), and disarm themselves. -/
def fireTrigger (st : TState) : Trigger → TState × List Effect
  | .destroy => cleanupClosure st
  | .procExit =>
      if st.exitArmed then cleanupClosure { st with exitArmed := false }
      else (st, [])
  | .sigint =>
      if st.intArmed then cleanupClosure { st with intArmed := false }
      else (st, [])
  | .sigterm =>
      if st.termArmed then cleanupClosure { st with termArmed := false }
      else (st, [])

/-- Fire a sequence of triggers, accumulating the effect trace. -/
def runTriggers (st : TState) : List Trigger → TState × List Effect
  | [] => (st, [])
  | t :: ts =>
      let r1 := fireTrigger st t
      let r2 := runTriggers r1.1 ts
      (r2.1, r1.2 ++ r2.2)

/-- `cleanupSession` emits exactly one `disconnect`, so counting
`disconnect` effects counts teardown executions. -/
def isDisconnect : Effect → Bool
  | .disconnect => true
  | _ => false

/-- Number of teardown executions recorded in a trace. -/
def cleanupCount (tr : List Effect) : Nat :=
  tr.countP isDisconnect

/-! ## Effect classification helpers -/

/-- Whether an effect is a handshake HTTP probe. -/
def isHttpProbe : Effect → Bool
  | .httpProbe _ _ => true
  | _ => false

/-- Whether an effect is the 200 ms polling sleep. -/
def isSleep200 : Effect → Bool
  | .sleep 200 => true
  | _ => false

/-- Whether a network-facing effect carries a bounded timeout.
Non-network effects count as trivially bounded. -/
def boundedNet : Effect → Bool
  | .httpProbe _ t => t.isSome
  | .versionCall t => t.isSome
  | .closeBrowser t => t.isSome
  | _ => true

/-- Whether an error is a spawn-stage launch failure (the only
spawn-stage `throw` of the source is the WMI path, line 127). -/
def isSpawnError : Err → Bool
  | .wmiLaunchFailed => true
  | _ => false

/-- The spec's rendering of a graceful teardown: the trace contains a
protocol-level close bounded by a timeout. -/
def gracefulRacedClose (tr : List Effect) : Prop :=
  ∃ t, Effect.closeBrowser (some t) ∈ tr

/-- The trace of `fuel` failed handshake attempts. -/
def sleepProbeBlocks (url : String) : Nat → List Effect
  | 0 => []
  | f + 1 => probeEffects url ++ sleepProbeBlocks url f

/-- Invariant of the interleaving machine: the cached pid always names
a live process. -/
def cinv (st : CState) : Prop :=
  ∀ pid, st.cached = some pid → pid ∈ st.procs

/-! ## Concrete instances used by witnesses and counterexamples -/

/-- A concrete cached session. -/
def sessionW : BrowserSession :=
  { wsUrl := "ws://127.0.0.1:9222/devtools", tempDir := "profile-dir",
    browserPid := some 7 }

/-- A world whose cached-session liveness probe succeeds. -/
def wHealthy : World :=
  { platform := .posix, pf86 := none, pf := none, localAppData := none,
    fsExists := fun _ => false, tempDir := "d", port := none,
    wmiPid := none, posixPid := none, probe := fun _ => none,
    connectOk := true, versionOk := true }

/-- A world whose cached-session liveness probe fails and where no
browser executable exists. -/
def wDead : World :=
  { platform := .posix, pf86 := none, pf := none, localAppData := none,
    fsExists := fun _ => false, tempDir := "d", port := none,
    wmiPid := none, posixPid := none, probe := fun _ => none,
    connectOk := true, versionOk := false }

/-- A world with no browser executable on any candidate path. -/
def wNoExec : World :=
  { platform := .posix, pf86 := none, pf := none, localAppData := none,
    fsExists := fun _ => false, tempDir := "d", port := some 9222,
    wmiPid := none, posixPid := some 7, probe := fun _ => none,
    connectOk := true, versionOk := true }

/-- A world where exactly `/usr/bin/chromium` exists on disk. -/
def wFound : World :=
  { platform := .posix, pf86 := none, pf := none, localAppData := none,
    fsExists := fun s => s == "/usr/bin/chromium", tempDir := "d",
    port := some 9222, wmiPid := none, posixPid := some 7,
    probe := fun _ => none, connectOk := true, versionOk := true }

/-- A POSIX world where the handshake endpoint never answers. -/
def wExhaust : World :=
  { platform := .posix, pf86 := none, pf := none, localAppData := none,
    fsExists := fun _ => true, tempDir := "profile-dir", port := some 9222,
    wmiPid := none, posixPid := some 7, probe := fun _ => none,
    connectOk := true, versionOk := true }

/-- A POSIX world where the `spawn` call fails: the swallowed `error`
event leaves `child.pid` absent, and nothing listens on the port. -/
def wSpawnFail : World :=
  { platform := .posix, pf86 := none, pf := none, localAppData := none,
    fsExists := fun _ => true, tempDir := "profile-dir", port := some 9222,
    wmiPid := none, posixPid := none, probe := fun _ => none,
    connectOk := true, versionOk := true }

/-- A Windows world where the WMI spawn throws. -/
def wWin32Fail : World :=
  { platform := .win32, pf86 := none, pf := none, localAppData := none,
    fsExists := fun _ => true, tempDir := "profile-dir", port := some 9222,
    wmiPid := none, posixPid := none, probe := fun _ => none,
    connectOk := true, versionOk := true }

/-- Module state holding the concrete cached session. -/
def stCached : GState :=
  { cachedBrowserPath := none, cachedSession := some sessionW,
    cleanupRegistered := true }

/-- Empty module state. -/
def stEmpty : GState :=
  { cachedBrowserPath := none, cachedSession := none,
    cleanupRegistered := false }

/-- Trigger-machine state with the concrete session and all handlers
armed. -/
def tArmed : TState :=
  { cached := some sessionW, exitArmed := true, intArmed := true,
    termArmed := true }

/-! ## Helper lemmas: handshake loop -/

theorem handshakeAux_probe_shape (probe : Nat → Option String) (url : String) :
    ∀ (fuel i : Nat) (e : Effect), e ∈ (handshakeAux probe url fuel i).2 →
      isHttpProbe e = true → e = Effect.httpProbe url (some 2000) := by
  intro fuel
  induction fuel with
  | zero => intro i e he _; simp [handshakeAux] at he
  | succ f ih =>
      intro i e he hp
      cases hpi : probe i with
      | some ws =>
          simp [handshakeAux, hpi, probeEffects] at he
          rcases he with h | h
          · subst h; simp [isHttpProbe] at hp
          · subst h; rfl
      | none =>
          simp [handshakeAux, hpi, probeEffects] at he
          rcases he with h | h | h
          · subst h; simp [isHttpProbe] at hp
          · subst h; rfl
          · exact ih (i + 1) e h hp

theorem handshakeAux_allFail (probe : Nat → Option String) (url : String) :
    ∀ (fuel i : Nat), (∀ j, i ≤ j → j < i + fuel → probe j = none) →
      handshakeAux probe url fuel i = (none, sleepProbeBlocks url fuel) := by
  intro fuel
  induction fuel with
  | zero => intro i _; simp [handshakeAux, sleepProbeBlocks]
  | succ f ih =>
      intro i h
      have hpi : probe i = none := h i (le_refl i) (by omega)
      have hrest := ih (i + 1) (fun j hj1 hj2 => h j (by omega) (by omega))
      simp [handshakeAux, hpi, hrest, sleepProbeBlocks]

theorem mem_sleepProbeBlocks (url : String) :
    ∀ (f : Nat) (e : Effect), e ∈ sleepProbeBlocks url f →
      e = Effect.sleep 200 ∨ e = Effect.httpProbe url (some 2000) := by
  intro f
  induction f with
  | zero => intro e he; simp [sleepProbeBlocks] at he
  | succ n ih =>
      intro e he
      simp [sleepProbeBlocks, probeEffects] at he
      rcases he with h | h | h
      · exact Or.inl h
      · exact Or.inr h
      · exact ih e h

theorem countP_httpProbe_blocks (url : String) :
    ∀ f, (sleepProbeBlocks url f).countP isHttpProbe = f := by
  intro f
  induction f with
  | zero => rfl
  | succ n ih =>
      simp [sleepProbeBlocks, probeEffects, List.countP_cons, List.countP_append,
        ih, isHttpProbe]

theorem countP_sleep_blocks (url : String) :
    ∀ f, (sleepProbeBlocks url f).countP isSleep200 = f := by
  intro f
  induction f with
  | zero => rfl
  | succ n ih =>
      simp [sleepProbeBlocks, probeEffects, List.countP_cons, List.countP_append,
        ih, isSleep200]

/-! ## Helper lemmas: first-match search -/

theorem find?_first_mem (f : String → Bool) :
    ∀ (l₁ : List String) (l₂ : List String) (p : String),
      (∀ q ∈ l₁, f q = false) → f p = true →
      (l₁ ++ p :: l₂).find? f = some p := by
  intro l₁
  induction l₁ with
  | nil => intro l₂ p _ hp; simp [List.find?_cons, hp]
  | cons a l ih =>
      intro l₂ p h hp
      have ha : f a = false := h a (by simp)
      simp only [List.cons_append, List.find?_cons, ha]
      exact ih l₂ p (fun q hq => h q (by simp [hq])) hp

/-! ## Helper lemmas: launch traces -/

theorem handshake_probe_shape (probe : Nat → Option String) (url : String) :
    ∀ e ∈ (handshake probe url).2, isHttpProbe e = true →
      e = Effect.httpProbe url (some 2000) :=
  fun e he hp => handshakeAux_probe_shape probe url 30 0 e he hp

theorem afterSpawn_probe_shape (w : World) (port : Nat) (dir : String)
    (pid : Option Nat) (tr : List Effect)
    (htr : ∀ e ∈ tr, isHttpProbe e = false) :
    ∀ e ∈ (afterSpawn w port dir pid tr).2, isHttpProbe e = true →
      e = Effect.httpProbe (debugUrl port) (some 2000) := by
  intro e he hp
  have hhs := handshake_probe_shape w.probe (debugUrl port)
  cases hh : (handshake w.probe (debugUrl port)).1 with
  | none =>
      simp [afterSpawn, hh] at he
      rcases he with h | h | h | h
      · rw [htr e h] at hp; exact absurd hp (by simp)
      · exact hhs e h hp
      · cases pid with
        | none => simp [killEffects] at h
        | some q =>
            simp [killEffects] at h
            subst h; simp [isHttpProbe] at hp
      · subst h; simp [isHttpProbe] at hp
  | some ws =>
      by_cases hco : w.connectOk
      · simp [afterSpawn, hh, hco] at he
        rcases he with h | h | h
        · rw [htr e h] at hp; exact absurd hp (by simp)
        · exact hhs e h hp
        · subst h; simp [isHttpProbe] at hp
      · simp [afterSpawn, hh, hco] at he
        rcases he with h | h | h | h | h
        · rw [htr e h] at hp; exact absurd hp (by simp)
        · exact hhs e h hp
        · subst h; simp [isHttpProbe] at hp
        · cases pid with
          | none => simp [killEffects] at h
          | some q =>
              simp [killEffects] at h
              subst h; simp [isHttpProbe] at hp
        · subst h; simp [isHttpProbe] at hp

theorem launchBrowser_probe_shape (w : World) (cache : Option String) :
    ∀ e ∈ (launchBrowser w cache).2.2, isHttpProbe e = true →
      ∃ u, e = Effect.httpProbe u (some 2000) := by
  intro e he hp
  rcases hgp : getBrowserPath w cache with ⟨r, c⟩
  cases r with
  | error err => simp [launchBrowser, hgp] at he
  | ok path =>
      cases hport : w.port with
      | none =>
          simp [launchBrowser, hgp, hport] at he
          subst he; simp [isHttpProbe] at hp
      | some port =>
          cases hplat : w.platform with
          | win32 =>
              cases hwmi : w.wmiPid with
              | none =>
                  simp [launchBrowser, hgp, hport, hplat, hwmi] at he
                  rcases he with h | h | h <;>
                    (subst h; simp [isHttpProbe] at hp)
              | some pid =>
                  simp [launchBrowser, hgp, hport, hplat, hwmi] at he
                  exact ⟨debugUrl port,
                    afterSpawn_probe_shape w port w.tempDir (some pid) _
                      (by
                        intro x hx
                        simp at hx
                        rcases hx with rfl | rfl <;> rfl)
                      e he hp⟩
          | posix =>
              simp [launchBrowser, hgp, hport, hplat] at he
              exact ⟨debugUrl port,
                afterSpawn_probe_shape w port w.tempDir w.posixPid _
                  (by
                    intro x hx
                    simp at hx
                    rcases hx with rfl | rfl <;> rfl)
                  e he hp⟩

/-! ## Helper lemmas: cache slot on failure -/

theorem getSharedBrowser_error_slot (w : World) (st : GState) (e : Err)
    (h : (getSharedBrowser w st).1 = .error e) :
    (getSharedBrowser w st).2.1.cachedSession = none := by
  cases hcs : st.cachedSession with
  | none =>
      rcases hl : launchBrowser w st.cachedBrowserPath with ⟨r, c, tr⟩
      cases r with
      | ok sn => simp [getSharedBrowser, hcs, hl] at h
      | error e2 => simp [getSharedBrowser, hcs, hl]
  | some s =>
      by_cases hv : w.versionOk
      · simp [getSharedBrowser, hcs, hv] at h
      · rcases hl : launchBrowser w st.cachedBrowserPath with ⟨r, c, tr⟩
        cases r with
        | ok sn => simp [getSharedBrowser, hcs, hv, hl] at h
        | error e2 => simp [getSharedBrowser, hcs, hv, hl]

/-! ## Helper lemmas: interleaving machine -/

theorem cstep_call_start_none (st : CState) (c : Nat)
    (hpc : st.pcs c = Pc.start) (hc : st.cached = none) :
    cstep st (CAct.call c) =
      { st with pcs := fun d => if d = c then Pc.launching else st.pcs d } := by
  simp [cstep, hpc, hc]

theorem cstep_call_launching (st : CState) (c : Nat)
    (hpc : st.pcs c = Pc.launching) :
    cstep st (CAct.call c) =
      { cached := some st.nextPid, nextPid := st.nextPid + 1,
        procs := st.procs ++ [st.nextPid],
        pcs := fun d => if d = c then Pc.done else st.pcs d } := by
  simp [cstep, hpc]

theorem runSched_cons (st : CState) (a : CAct) (acts : List CAct) :
    runSched st (a :: acts) = runSched (cstep st a) acts := rfl

theorem runSched_append (st : CState) (xs ys : List CAct) :
    runSched st (xs ++ ys) = runSched (runSched st xs) ys := by
  simp [runSched, List.foldl_append]

theorem runSched_phase1 :
    ∀ (l : List Nat) (st : CState), l.Nodup → st.cached = none →
      (∀ c ∈ l, st.pcs c = Pc.start) →
      (runSched st (l.map CAct.call)).cached = none ∧
      (runSched st (l.map CAct.call)).procs = st.procs ∧
      (runSched st (l.map CAct.call)).nextPid = st.nextPid ∧
      (∀ c, (runSched st (l.map CAct.call)).pcs c =
        if c ∈ l then Pc.launching else st.pcs c) := by
  intro l
  induction l with
  | nil => intro st _ hc _; simp [runSched, hc]
  | cons a l ih =>
      intro st hnd hc hpcs
      have hpa : st.pcs a = Pc.start := hpcs a (by simp)
      have hna : a ∉ l := (List.nodup_cons.mp hnd).1
      have hstep := cstep_call_start_none st a hpa hc
      have hlist : (a :: l).map CAct.call = CAct.call a :: l.map CAct.call := rfl
      rw [hlist, runSched_cons, hstep]
      have hih := ih { st with pcs := fun d => if d = a then Pc.launching else st.pcs d }
        (List.nodup_cons.mp hnd).2 hc
        (by
          intro c hcl
          have hne : c ≠ a := fun h => hna (h ▸ hcl)
          simp [hne, hpcs c (List.mem_cons_of_mem a hcl)])
      refine ⟨hih.1, hih.2.1, hih.2.2.1, ?_⟩
      intro c
      rw [hih.2.2.2 c]
      by_cases hcl : c ∈ l
      · simp [hcl, List.mem_cons_of_mem a hcl]
      · by_cases hca : c = a
        · subst hca; simp [hcl]
        · simp [hcl, hca]

theorem runSched_phase2 :
    ∀ (l : List Nat) (st : CState), l.Nodup →
      (∀ c ∈ l, st.pcs c = Pc.launching) →
      (runSched st (l.map CAct.call)).procs.length =
        st.procs.length + l.length ∧
      (l ≠ [] → (runSched st (l.map CAct.call)).cached.isSome = true) := by
  intro l
  induction l with
  | nil => intro st _ _; simp [runSched]
  | cons a l ih =>
      intro st hnd hpcs
      have hpa : st.pcs a = Pc.launching := hpcs a (by simp)
      have hna : a ∉ l := (List.nodup_cons.mp hnd).1
      have hstep := cstep_call_launching st a hpa
      have hlist : (a :: l).map CAct.call = CAct.call a :: l.map CAct.call := rfl
      rw [hlist, runSched_cons, hstep]
      set st1 : CState :=
        { cached := some st.nextPid, nextPid := st.nextPid + 1,
          procs := st.procs ++ [st.nextPid],
          pcs := fun d => if d = a then Pc.done else st.pcs d } with hst1
      have hih := ih st1 (List.nodup_cons.mp hnd).2
        (by
          intro c hcl
          have hne : c ≠ a := fun h => hna (h ▸ hcl)
          simp [hst1, hne, hpcs c (List.mem_cons_of_mem a hcl)])
      constructor
      · rw [hih.1]
        simp [hst1]
        omega
      · intro _
        by_cases hl : l = []
        · subst hl; simp [runSched, hst1]
        · exact hih.2 hl

theorem cstep_inv (st : CState) (a : CAct) (h : cinv st) : cinv (cstep st a) := by
  cases a with
  | destroy =>
      cases hc : st.cached with
      | none => simpa [cstep, hc] using h
      | some pid => intro q hq; simp [cstep, hc] at hq
  | call c =>
      cases hpc : st.pcs c with
      | start =>
          cases hc : st.cached with
          | none => intro q hq; simp [cstep, hpc, hc] at hq
          | some pid =>
              intro q hq
              simp [cstep, hpc, hc] at hq ⊢
              subst hq
              exact h pid hc
      | launching =>
          intro q hq
          simp [cstep, hpc] at hq
          simp [cstep, hpc, ← hq]
      | done => simpa [cstep, hpc] using h

theorem runSched_inv :
    ∀ (acts : List CAct) (st : CState), cinv st → cinv (runSched st acts) := by
  intro acts
  induction acts with
  | nil => intro st h; simpa [runSched] using h
  | cons a acts ih =>
      intro st h
      rw [runSched_cons]
      exact ih _ (cstep_inv st a h)

/-! ## Helper lemmas: teardown triggers -/

theorem cleanupCount_cleanupSession (s : BrowserSession) :
    cleanupCount (cleanupSession s) = 1 := by
  cases s with
  | mk ws d pid =>
      cases pid <;>
        simp [cleanupCount, cleanupSession, killEffects, isDisconnect,
          List.countP_cons, List.countP_append]

theorem fireTrigger_none (st : TState) (t : Trigger) (hc : st.cached = none) :
    (fireTrigger st t).2 = [] ∧ (fireTrigger st t).1.cached = none := by
  cases t <;> simp [fireTrigger, cleanupClosure, hc] <;> split <;> simp [hc]

theorem fireTrigger_cases (st : TState) (t : Trigger) (s : BrowserSession)
    (hc : st.cached = some s) :
    ((fireTrigger st t).2 = [] ∧ (fireTrigger st t).1.cached = some s) ∨
    ((fireTrigger st t).2 = cleanupSession s ∧
      (fireTrigger st t).1.cached = none) := by
  cases t with
  | destroy => exact Or.inr (by simp [fireTrigger, cleanupClosure, hc])
  | procExit =>
      by_cases he : st.exitArmed
      · exact Or.inr (by simp [fireTrigger, cleanupClosure, hc, he])
      · exact Or.inl (by simp [fireTrigger, cleanupClosure, hc, he])
  | sigint =>
      by_cases he : st.intArmed
      · exact Or.inr (by simp [fireTrigger, cleanupClosure, hc, he])
      · exact Or.inl (by simp [fireTrigger, cleanupClosure, hc, he])
  | sigterm =>
      by_cases he : st.termArmed
      · exact Or.inr (by simp [fireTrigger, cleanupClosure, hc, he])
      · exact Or.inl (by simp [fireTrigger, cleanupClosure, hc, he])

theorem runTriggers_cons (st : TState) (t : Trigger) (ts : List Trigger) :
    runTriggers st (t :: ts) =
      ((runTriggers (fireTrigger st t).1 ts).1,
        (fireTrigger st t).2 ++ (runTriggers (fireTrigger st t).1 ts).2) := rfl

theorem runTriggers_none :
    ∀ (ts : List Trigger) (st : TState), st.cached = none →
      (runTriggers st ts).2 = [] ∧ (runTriggers st ts).1.cached = none := by
  intro ts
  induction ts with
  | nil => intro st hc; simpa [runTriggers] using hc
  | cons t ts ih =>
      intro st hc
      obtain ⟨h1, h2⟩ := fireTrigger_none st t hc
      rw [runTriggers_cons, h1]
      obtain ⟨h3, h4⟩ := ih _ h2
      simpa [h3] using h4

theorem runTriggers_le_one :
    ∀ (ts : List Trigger) (st : TState),
      cleanupCount (runTriggers st ts).2 ≤ 1 := by
  intro ts
  induction ts with
  | nil => intro st; simp [runTriggers, cleanupCount]
  | cons t ts ih =>
      intro st
      rw [runTriggers_cons]
      cases hc : st.cached with
      | none =>
          obtain ⟨h1, h2⟩ := fireTrigger_none st t hc
          obtain ⟨h3, _⟩ := runTriggers_none ts _ h2
          simp [h1, h3, cleanupCount]
      | some s =>
          rcases fireTrigger_cases st t s hc with ⟨h1, _⟩ | ⟨h1, h2⟩
          · simpa [h1, cleanupCount] using ih (fireTrigger st t).1
          · obtain ⟨h3, _⟩ := runTriggers_none ts _ h2
            simp [h1, h3, cleanupCount, cleanupCount_cleanupSession s,
              List.countP_append]
            have := cleanupCount_cleanupSession s
            simp [cleanupCount] at this
            omega

theorem runTriggers_fires_once (ts : List Trigger) (st : TState)
    (s : BrowserSession) (t : Trigger)
    (hfire : (fireTrigger st t).2 = cleanupSession s ∧
      (fireTrigger st t).1.cached = none) :
    cleanupCount (runTriggers st (t :: ts)).2 = 1 := by
  rw [runTriggers_cons, hfire.1]
  obtain ⟨h3, _⟩ := runTriggers_none ts _ hfire.2
  simp [h3, cleanupCount, List.countP_append]
  have := cleanupCount_cleanupSession s
  simp [cleanupCount] at this
  omega

/-! ## Claim theorems -/

/-- C9: the executable locator probes the ordered, deduplicated
candidate list (which includes environment-variable-derived paths) and
returns the first path existing on disk; the first success is cached
and every later call returns the cached path without re-probing; when
no candidate exists it fails with the executable-not-found error. -/
theorem getBrowserPath_first_existing (w : World) (p v : String) :
    getBrowserPath w (some p) = (Except.ok p, some p) ∧
    ((∃ l₁ l₂, dedupFirst (candidates w) = l₁ ++ p :: l₂ ∧
        (∀ q ∈ l₁, w.fsExists q = false) ∧ w.fsExists p = true) →
      getBrowserPath w none = (Except.ok p, some p)) ∧
    ((∀ q ∈ dedupFirst (candidates w), w.fsExists q = false) →
      getBrowserPath w none = (Except.error Err.execNotFound, none)) ∧
    (w.pf86 = some v →
      (v ++ "\\Microsoft\\Edge\\Application\\msedge.exe") ∈ candidates w) := by
  refine ⟨rfl, ?_, ?_, ?_⟩
  · rintro ⟨l₁, l₂, hdec, hfalse, hp⟩
    simp [getBrowserPath, hdec, find?_first_mem w.fsExists l₁ l₂ p hfalse hp]
  · intro h
    have hn : (dedupFirst (candidates w)).find? w.fsExists = none :=
      List.find?_eq_none.mpr (by intro x hx; simp [h x hx])
    simp [getBrowserPath, hn]
  · intro hv
    simp [candidates, hv]

/-- C9 witness: in the world where exactly `/usr/bin/chromium` exists,
the locator returns it and caches it. -/
theorem getBrowserPath_first_existing_witness :
    getBrowserPath wFound none =
      (Except.ok "/usr/bin/chromium", some "/usr/bin/chromium") :=
  (getBrowserPath_first_existing wFound "/usr/bin/chromium" "x").2.1
    ⟨["C:\\Program Files (x86)\\Microsoft\\Edge\\Application\\msedge.exe",
      "C:\\Program Files\\Microsoft\\Edge\\Application\\msedge.exe",
      "C:\\Program Files (x86)\\Google\\Chrome\\Application\\chrome.exe",
      "C:\\Program Files\\Google\\Chrome\\Application\\chrome.exe",
      "/usr/bin/google-chrome", "/usr/bin/chromium-browser"],
     ["/usr/bin/microsoft-edge",
      "/Applications/Google Chrome.app/Contents/MacOS/Google Chrome",
      "/Applications/Microsoft Edge.app/Contents/MacOS/Microsoft Edge"],
     by decide, by decide, by decide⟩

/-- C10: a failed executable lookup caches nothing: when no candidate
path exists, the call returns the executable-not-found error with the
path cache left `none`, so the next call re-probes the whole candidate
list from scratch and can succeed if a browser has appeared since. -/
theorem getBrowserPath_failure_caches_nothing (w w2 : World) (p : String)
    (hfail : ∀ q ∈ dedupFirst (candidates w), w.fsExists q = false) :
    (getBrowserPath w none).1 = Except.error Err.execNotFound ∧
    (getBrowserPath w none).2 = none ∧
    ((∃ l₁ l₂, dedupFirst (candidates w2) = l₁ ++ p :: l₂ ∧
        (∀ q ∈ l₁, w2.fsExists q = false) ∧ w2.fsExists p = true) →
      getBrowserPath w2 (getBrowserPath w none).2 = (Except.ok p, some p)) := by
  have hn : (dedupFirst (candidates w)).find? w.fsExists = none :=
    List.find?_eq_none.mpr (by intro x hx; simp [hfail x hx])
  refine ⟨by simp [getBrowserPath, hn], by simp [getBrowserPath, hn], ?_⟩
  rintro ⟨l₁, l₂, hdec, hfalse, hp⟩
  simp [getBrowserPath, hn, hdec,
    find?_first_mem w2.fsExists l₁ l₂ p hfalse hp]

/-- C10 witness: the lookup in the empty world fails and leaves the
cache `none`; re-probing in the world where a browser has appeared
succeeds. -/
theorem getBrowserPath_failure_caches_nothing_witness :
    (getBrowserPath wNoExec none).1 = Except.error Err.execNotFound ∧
    getBrowserPath wFound (getBrowserPath wNoExec none).2 =
      (Except.ok "/usr/bin/chromium", some "/usr/bin/chromium") := by
  have h := getBrowserPath_failure_caches_nothing wNoExec wFound
    "/usr/bin/chromium" (fun q _ => rfl)
  exact ⟨h.1, h.2.2
    ⟨["C:\\Program Files (x86)\\Microsoft\\Edge\\Application\\msedge.exe",
      "C:\\Program Files\\Microsoft\\Edge\\Application\\msedge.exe",
      "C:\\Program Files (x86)\\Google\\Chrome\\Application\\chrome.exe",
      "C:\\Program Files\\Google\\Chrome\\Application\\chrome.exe",
      "/usr/bin/google-chrome", "/usr/bin/chromium-browser"],
     ["/usr/bin/microsoft-edge",
      "/Applications/Google Chrome.app/Contents/MacOS/Google Chrome",
      "/Applications/Microsoft Edge.app/Contents/MacOS/Microsoft Edge"],
     by decide, by decide, by decide⟩⟩

/-- C3: creation is atomic with respect to the cache slot: whenever
`getSharedBrowser` returns an error — from any creation stage — the
cache slot is empty afterwards; in particular, with no browser
executable on any candidate path it fails with the
executable-not-found error and the slot stays empty. -/
theorem getSharedBrowser_creation_atomic (w : World) (st : GState) :
    (∀ e, (getSharedBrowser w st).1 = .error e →
      (getSharedBrowser w st).2.1.cachedSession = none) ∧
    (st.cachedSession = none → st.cachedBrowserPath = none →
      (∀ q ∈ dedupFirst (candidates w), w.fsExists q = false) →
      (getSharedBrowser w st).1 = Except.error Err.execNotFound ∧
      (getSharedBrowser w st).2.1.cachedSession = none) := by
  constructor
  · intro e he
    exact getSharedBrowser_error_slot w st e he
  · intro hcs hcp hfail
    have hn : (dedupFirst (candidates w)).find? w.fsExists = none :=
      List.find?_eq_none.mpr (by intro x hx; simp [hfail x hx])
    have hl : launchBrowser w st.cachedBrowserPath =
        (.error .execNotFound, none, []) := by
      simp [launchBrowser, getBrowserPath, hcp, hn]
    simp [getSharedBrowser, hcs, hl]

/-- C3 witness: with an empty slot and no executable anywhere, the
call fails with the executable-not-found error and the slot is still
empty. -/
theorem getSharedBrowser_creation_atomic_witness :
    (getSharedBrowser wNoExec stEmpty).1 = Except.error Err.execNotFound ∧
    (getSharedBrowser wNoExec stEmpty).2.1.cachedSession = none :=
  (getSharedBrowser_creation_atomic wNoExec stEmpty).2 rfl rfl
    (fun _ _ => rfl)

/-- C2: reuse on health: with a cached session whose liveness probe
succeeds, `getSharedBrowser` returns that session with the state
unchanged, so a second healthy call returns the same session and hence
the same process identifier; when the probe fails, the stale session's
cleanup effects precede every creation effect in the trace, the result
is that of a fresh creation, and the slot holds the new session on
success and stays empty on failure. -/
theorem getSharedBrowser_reuse_on_health (w w2 wf : World) (st : GState)
    (s : BrowserSession) (hs : st.cachedSession = some s) :
    (w.versionOk = true →
      getSharedBrowser w st = (.ok s, st, [.versionCall none]) ∧
      (w2.versionOk = true →
        (getSharedBrowser w2 (getSharedBrowser w st).2.1).1 = .ok s)) ∧
    (wf.versionOk = false →
      (getSharedBrowser wf st).2.2 =
        Effect.versionCall none ::
          (cleanupSession s ++ (launchBrowser wf st.cachedBrowserPath).2.2) ∧
      (getSharedBrowser wf st).1 = (launchBrowser wf st.cachedBrowserPath).1 ∧
      (∀ e, (launchBrowser wf st.cachedBrowserPath).1 = .error e →
        (getSharedBrowser wf st).2.1.cachedSession = none) ∧
      (∀ sn, (launchBrowser wf st.cachedBrowserPath).1 = .ok sn →
        (getSharedBrowser wf st).2.1.cachedSession = some sn)) := by
  constructor
  · intro hv
    have h1 : getSharedBrowser w st = (.ok s, st, [.versionCall none]) := by
      simp [getSharedBrowser, hs, hv]
    refine ⟨h1, ?_⟩
    intro hv2
    rw [h1]
    simp [getSharedBrowser, hs, hv2]
  · intro hvf
    rcases hl : launchBrowser wf st.cachedBrowserPath with ⟨r, c, tr⟩
    cases r with
    | ok sn => simp [getSharedBrowser, hs, hvf, hl]
    | error e2 => simp [getSharedBrowser, hs, hvf, hl]

/-- C2 witness: a healthy cached session is returned unchanged, and a
dead one makes the call behave as a fresh creation. -/
theorem getSharedBrowser_reuse_on_health_witness :
    getSharedBrowser wHealthy stCached =
      (.ok sessionW, stCached, [Effect.versionCall none]) ∧
    (getSharedBrowser wDead stCached).1 =
      (launchBrowser wDead stCached.cachedBrowserPath).1 := by
  have h := getSharedBrowser_reuse_on_health wHealthy wHealthy wDead
    stCached sessionW rfl
  exact ⟨(h.1 rfl).1, (h.2 rfl).2.1⟩

/-- C4 (counterexample): the shared teardown performs no
protocol-level close raced against a timeout — no bounded
`closeBrowser` effect appears in its trace — it kills the process id
even though nothing failed, and it never performs a descendant-tree
kill. -/
theorem cleanupSession_no_graceful_race :
    ¬ gracefulRacedClose (cleanupSession sessionW) ∧
    Effect.killPid 7 ∈ cleanupSession sessionW ∧
    ∀ q, Effect.killTree q ∉ cleanupSession sessionW := by
  refine ⟨?_, by simp [cleanupSession, sessionW, killEffects], ?_⟩
  · rintro ⟨t, ht⟩
    simp [cleanupSession, sessionW, killEffects, gracefulRacedClose] at ht
  · intro q
    simp [cleanupSession, sessionW, killEffects]

/-- C4 (amended): teardown of the shared module disconnects the
control channel (the bing variant issues an un-timed protocol close
instead), then unconditionally force-kills by process identifier when
one is recorded — a single kill, no descendant-tree termination — and
then best-effort removes the profile directory. -/
theorem cleanupSession_actual_shape (ws d : String) (p : Nat) :
    cleanupSession ⟨ws, d, some p⟩ =
      [Effect.disconnect, Effect.killPid p, Effect.rmDir d] ∧
    cleanupSession ⟨ws, d, none⟩ = [Effect.disconnect, Effect.rmDir d] ∧
    bingCleanupSession ⟨ws, d, some p⟩ =
      [Effect.closeBrowser none, Effect.killPid p, Effect.rmDir d] :=
  ⟨rfl, rfl, rfl⟩

/-- C5: the handshake prober polls the debug endpoint with a budget of
30 attempts at a 200 ms interval, each probe independently bounded by
a 2000 ms abort; when all 30 attempts fail, the launch reports the
handshake-failure error, kills the just-launched process and removes
the profile directory. -/
theorem launchBrowser_handshake_budget (w : World) (path : String)
    (port p : Nat) (hplat : w.platform = Platform.posix)
    (hport : w.port = some port) (hpid : w.posixPid = some p)
    (hprobe : ∀ i, i < 30 → w.probe i = none) :
    (launchBrowser w (some path)).1 = Except.error Err.handshakeFailed ∧
    (launchBrowser w (some path)).2.2 =
      Effect.mkTempDir w.tempDir :: Effect.spawnPosix path ::
        (sleepProbeBlocks (debugUrl port) 30 ++
          [Effect.killPid p, Effect.rmDir w.tempDir]) ∧
    (launchBrowser w (some path)).2.2.countP isHttpProbe = 30 ∧
    (launchBrowser w (some path)).2.2.countP isSleep200 = 30 ∧
    (∀ e ∈ (launchBrowser w (some path)).2.2, isHttpProbe e = true →
      e = Effect.httpProbe (debugUrl port) (some 2000)) := by
  have hhs : handshake w.probe (debugUrl port) =
      (none, sleepProbeBlocks (debugUrl port) 30) :=
    handshakeAux_allFail w.probe (debugUrl port) 30 0
      (fun j h1 h2 => hprobe j (by omega))
  have htrace : (launchBrowser w (some path)).2.2 =
      Effect.mkTempDir w.tempDir :: Effect.spawnPosix path ::
        (sleepProbeBlocks (debugUrl port) 30 ++
          [Effect.killPid p, Effect.rmDir w.tempDir]) := by
    simp [launchBrowser, getBrowserPath, hport, hplat, hpid, afterSpawn,
      hhs, killEffects]
  refine ⟨?_, htrace, ?_, ?_, ?_⟩
  · simp [launchBrowser, getBrowserPath, hport, hplat, hpid, afterSpawn, hhs]
  · rw [htrace]
    simp [List.countP_cons, List.countP_append, countP_httpProbe_blocks,
      isHttpProbe]
  · rw [htrace]
    simp [List.countP_cons, List.countP_append, countP_sleep_blocks,
      isSleep200]
  · intro e he hp
    rw [htrace] at he
    simp at he
    rcases he with h | h | h | h | h
    · subst h; simp [isHttpProbe] at hp
    · subst h; simp [isHttpProbe] at hp
    · rcases mem_sleepProbeBlocks (debugUrl port) 30 e h with h1 | h1
      · subst h1; simp [isHttpProbe] at hp
      · exact h1
    · subst h; simp [isHttpProbe] at hp
    · subst h; simp [isHttpProbe] at hp

/-- C5 witness: in the POSIX world whose endpoint never answers, the
launch fails with the handshake error after exactly 30 bounded
probes. -/
theorem launchBrowser_handshake_budget_witness :
    (launchBrowser wExhaust (some "/usr/bin/chromium")).1 =
      Except.error Err.handshakeFailed ∧
    (launchBrowser wExhaust (some "/usr/bin/chromium")).2.2.countP
      isHttpProbe = 30 := by
  have h := launchBrowser_handshake_budget wExhaust "/usr/bin/chromium"
    9222 7 rfl rfl rfl (fun i _ => rfl)
  exact ⟨h.1, h.2.2.1⟩

/-- C6 (counterexample): on the POSIX branch a failure to spawn is not
propagated as a spawn-level launch error: the `error` event is
swallowed, no process id is recorded, and the creation attempt instead
fails with the handshake-failure error after the full retry budget. -/
theorem posix_spawn_failure_not_launch_error :
    wSpawnFail.posixPid = none ∧
    (launchBrowser wSpawnFail (some "/usr/bin/chromium")).1 =
      Except.error Err.handshakeFailed ∧
    isSpawnError Err.handshakeFailed = false := by
  refine ⟨rfl, ?_, rfl⟩
  have hhs : handshake wSpawnFail.probe (debugUrl 9222) =
      (none, sleepProbeBlocks (debugUrl 9222) 30) :=
    handshakeAux_allFail wSpawnFail.probe (debugUrl 9222) 30 0
      (fun j h1 h2 => rfl)
  simp [launchBrowser, getBrowserPath, afterSpawn, hhs, killEffects,
    show wSpawnFail.port = some 9222 from rfl,
    show wSpawnFail.platform = Platform.posix from rfl,
    show wSpawnFail.posixPid = none from rfl]

/-- C6 (amended): spawn-failure handling is platform-split: on the
Windows branch a spawn failure propagates as the WMI launch error with
the profile directory removed first; on the POSIX branch the spawn
error event is swallowed, so the failure surfaces only as the
handshake-failure error after the retry budget, with the profile
directory removed before propagating and no recorded process to
kill. -/
theorem launchBrowser_spawn_failure (w : World) (path : String)
    (port : Nat) (hport : w.port = some port) :
    (w.platform = Platform.win32 → w.wmiPid = none →
      (launchBrowser w (some path)).1 = Except.error Err.wmiLaunchFailed ∧
      (launchBrowser w (some path)).2.2 =
        [Effect.mkTempDir w.tempDir, Effect.spawnWMI path 10000,
          Effect.rmDir w.tempDir]) ∧
    (w.platform = Platform.posix → w.posixPid = none →
      (∀ i, i < 30 → w.probe i = none) →
      (launchBrowser w (some path)).1 = Except.error Err.handshakeFailed ∧
      Effect.rmDir w.tempDir ∈ (launchBrowser w (some path)).2.2 ∧
      (∀ q, Effect.killPid q ∉ (launchBrowser w (some path)).2.2)) := by
  constructor
  · intro hw hwmi
    constructor
    · simp [launchBrowser, getBrowserPath, hport, hw, hwmi]
    · simp [launchBrowser, getBrowserPath, hport, hw, hwmi]
  · intro hw hpid hprobe
    have hhs : handshake w.probe (debugUrl port) =
        (none, sleepProbeBlocks (debugUrl port) 30) :=
      handshakeAux_allFail w.probe (debugUrl port) 30 0
        (fun j h1 h2 => hprobe j (by omega))
    have htrace : (launchBrowser w (some path)).2.2 =
        Effect.mkTempDir w.tempDir :: Effect.spawnPosix path ::
          (sleepProbeBlocks (debugUrl port) 30 ++
            [Effect.rmDir w.tempDir]) := by
      simp [launchBrowser, getBrowserPath, hport, hw, hpid, afterSpawn,
        hhs, killEffects]
    refine ⟨?_, ?_, ?_⟩
    · simp [launchBrowser, getBrowserPath, hport, hw, hpid, afterSpawn, hhs]
    · rw [htrace]; simp
    · intro q hq
      rw [htrace] at hq
      simp at hq
      rcases mem_sleepProbeBlocks (debugUrl port) 30 _ hq with h1 | h1 <;>
        simp at h1

/-- C6 witness: the WMI branch fails with the launch error and the
POSIX branch with the handshake error. -/
theorem launchBrowser_spawn_failure_witness :
    (launchBrowser wWin32Fail (some "/usr/bin/chromium")).1 =
      Except.error Err.wmiLaunchFailed ∧
    (launchBrowser wSpawnFail (some "/usr/bin/chromium")).1 =
      Except.error Err.handshakeFailed := by
  have h1 := launchBrowser_spawn_failure wWin32Fail "/usr/bin/chromium"
    9222 rfl
  have h2 := launchBrowser_spawn_failure wSpawnFail "/usr/bin/chromium"
    9222 rfl
  exact ⟨(h1.1 rfl rfl).1, (h2.2 rfl rfl (fun i _ => rfl)).1⟩

/-- C7 (counterexample): not every network-facing step carries a
bounded timeout: with a cached session, the trace of
`getSharedBrowser` contains the liveness call with no timeout
attached. -/
theorem liveness_probe_unbounded :
    ¬ (∀ e ∈ (getSharedBrowser wHealthy stCached).2.2,
        boundedNet e = true) := by
  intro h
  have hm : Effect.versionCall none ∈
      (getSharedBrowser wHealthy stCached).2.2 := by
    have ht : (getSharedBrowser wHealthy stCached).2.2 =
        [Effect.versionCall none] := rfl
    rw [ht]
    simp
  have hb := h _ hm
  simp [boundedNet] at hb

/-- C7 (amended): of the manager's network-facing steps only the
handshake probes carry their own bounded timeout (2000 ms each); the
liveness probe issued on a cached session carries none. -/
theorem network_steps_timeouts (w : World) (cache : Option String)
    (st : GState) (s : BrowserSession) (hs : st.cachedSession = some s) :
    (∀ e ∈ (launchBrowser w cache).2.2, isHttpProbe e = true →
      ∃ u, e = Effect.httpProbe u (some 2000)) ∧
    (getSharedBrowser w st).2.2.head? = some (Effect.versionCall none) := by
  constructor
  · exact launchBrowser_probe_shape w cache
  · by_cases hv : w.versionOk
    · simp [getSharedBrowser, hs, hv]
    · rcases hl : launchBrowser w st.cachedBrowserPath with ⟨r, c, tr⟩
      cases r <;> simp [getSharedBrowser, hs, hv, hl]

/-- C7 witness: with the concrete cached session, the first trace
effect is the unbounded liveness call. -/
theorem network_steps_timeouts_witness :
    (getSharedBrowser wHealthy stCached).2.2.head? =
      some (Effect.versionCall none) :=
  (network_steps_timeouts wHealthy none stCached sessionW rfl).2

/-- C1 (counterexample): two concurrent first calls that both observe
the empty slot before either launch completes create two browser
processes, not exactly one. -/
theorem concurrent_first_calls_two_processes :
    (runSched initConc (simulSched 2)).procs.length = 2 ∧
    ¬ (runSched initConc (simulSched 2)).procs.length = 1 := by
  constructor
  · rfl
  · decide

/-- C1 (amended): the cache slot holds at most one session at any
instant over every sequence of calls and destroys, but N simultaneous
first calls each launch a browser process: after the race N processes
are live with exactly one cached, and a subsequent destroy kills only
the cached one, leaving N − 1 orphaned. -/
theorem single_slot_but_n_processes (acts : List CAct) (n : Nat)
    (hn : 2 ≤ n) :
    cachedCount (runSched initConc acts) ≤ 1 ∧
    (runSched initConc (simulSched n)).procs.length = n ∧
    cachedCount (runSched initConc (simulSched n)) = 1 ∧
    (cstep (runSched initConc (simulSched n)) CAct.destroy).procs.length
      = n - 1 := by
  have hsplit : runSched initConc (simulSched n) =
      runSched (runSched initConc ((List.range n).map CAct.call))
        ((List.range n).map CAct.call) := by
    rw [simulSched, runSched_append]
  have hnd := List.nodup_range n
  have hp1 := runSched_phase1 (List.range n) initConc hnd rfl
    (fun c _ => rfl)
  set st1 := runSched initConc ((List.range n).map CAct.call) with hst1
  have hp2 := runSched_phase2 (List.range n) st1 hnd
    (by intro c hc; rw [hp1.2.2.2 c]; simp [hc])
  have hne : List.range n ≠ [] := by
    simp [List.range_eq_nil]
    omega
  have hlen : (runSched st1 ((List.range n).map CAct.call)).procs.length
      = n := by
    rw [hp2.1, hp1.2.1]
    simp [initConc]
  have hsome := hp2.2 hne
  refine ⟨?_, ?_, ?_, ?_⟩
  · unfold cachedCount
    split <;> omega
  · rw [hsplit]
    exact hlen
  · rw [hsplit]
    simp [cachedCount, hsome]
  · rw [hsplit]
    obtain ⟨pid, hpid⟩ := Option.isSome_iff_exists.mp hsome
    have hinv : cinv (runSched st1 ((List.range n).map CAct.call)) := by
      rw [← hsplit]
      exact runSched_inv (simulSched n) initConc
        (by intro q hq; simp [initConc] at hq)
    have hmem := hinv pid hpid
    simp [cstep, hpid]
    rw [List.length_erase_of_mem hmem, hlen]

/-- C1 witness: at n = 2: one cached slot, two live processes, one
reclaimed by destroy. -/
theorem single_slot_but_n_processes_witness :
    cachedCount (runSched initConc [CAct.call 0, CAct.destroy]) ≤ 1 ∧
    (runSched initConc (simulSched 2)).procs.length = 2 ∧
    cachedCount (runSched initConc (simulSched 2)) = 1 ∧
    (cstep (runSched initConc (simulSched 2)) CAct.destroy).procs.length
      = 1 :=
  single_slot_but_n_processes [CAct.call 0, CAct.destroy] 2 (by decide)

/-- C8: over every sequence of shutdown triggers (explicit
invalidation, process-exit event, interrupt or termination signal) a
session's cleanup runs at most once — and exactly once when an
explicit destroy, or a still-armed exit handler, fires first — and a
teardown on an already-empty slot is a no-op that raises no error. -/
theorem cleanup_exactly_once (ts : List Trigger) (st : TState)
    (s : BrowserSession) (hc : st.cached = some s) (g : GState)
    (hg : g.cachedSession = none) :
    cleanupCount (runTriggers st ts).2 ≤ 1 ∧
    cleanupCount (runTriggers st (Trigger.destroy :: ts)).2 = 1 ∧
    (st.exitArmed = true →
      cleanupCount (runTriggers st (Trigger.procExit :: ts)).2 = 1) ∧
    destroySharedBrowser g = (g, []) := by
  refine ⟨runTriggers_le_one ts st, ?_, ?_, ?_⟩
  · exact runTriggers_fires_once ts st s Trigger.destroy
      (by simp [fireTrigger, cleanupClosure, hc])
  · intro he
    exact runTriggers_fires_once ts st s Trigger.procExit
      (by simp [fireTrigger, cleanupClosure, hc, he])
  · simp [destroySharedBrowser, hg]

/-- C8 witness: with the concrete armed state, destroy followed by
both signals cleans up exactly once, and teardown of the empty state
is a no-op. -/
theorem cleanup_exactly_once_witness :
    cleanupCount (runTriggers tArmed [Trigger.sigint, Trigger.sigterm]).2
      ≤ 1 ∧
    cleanupCount (runTriggers tArmed
      (Trigger.destroy :: [Trigger.sigint, Trigger.sigterm])).2 = 1 ∧
    destroySharedBrowser stEmpty = (stEmpty, []) := by
  have h := cleanup_exactly_once [Trigger.sigint, Trigger.sigterm] tArmed
    sessionW rfl stEmpty rfl
  exact ⟨h.1, h.2.1, h.2.2.2⟩

end WebSearch
